import Mathlib

/-!
Verification of the conversation-routing and reliability pipeline.

This file gives a shallow embedding of the Python sources of the repository
(circuit breaker, rate limiter, reliability wrapper, conversation context
manager, semantic cache, dual-role agent dispatch, entity extraction) and
proves or refutes the specification claims about them.

Machine integers and clock values are modelled as natural numbers.  All
comparisons in the sources are of the form `x < now - bound` or
`now - t > timeout` with non-negative times, for which truncated natural
subtraction yields the same booleans as real subtraction.
-/

/-! ### String helpers

Python `in` on strings is substring containment; `str.lower()` maps ASCII
letters to lower case.  Messages and keywords in the sources are ASCII, so
`Char.toLower` agrees with Python `lower` on every character involved.
-/

/-- `listStarts pat s` : `pat` is a prefix of `s` (exact characters). -/
def listStarts : List Char → List Char → Bool
  | [], _ => true
  | _ :: _, [] => false
  | p :: ps, c :: cs => p == c && listStarts ps cs

/-- `listInfix pat s` : `pat` occurs contiguously somewhere in `s`
(the semantics of Python `pat in s` on strings). -/
def listInfix (pat : List Char) : List Char → Bool
  | [] => pat.isEmpty
  | c :: cs => listStarts pat (c :: cs) || listInfix pat cs

/-- Lower-cased character data of a string, the model of `message.lower()`. -/
def lowerStr (s : String) : List Char := s.data.map Char.toLower

/-- Model of `keyword in message.lower()` for a lower-case ASCII keyword. -/
def kwIn (kw : String) (msg : String) : Bool := listInfix kw.data (lowerStr msg)

/-! ### `src/reliability/circuit_breaker.py`

```python
class CircuitBreaker:
    def __init__(self, fail_threshold=5, reset_timeout=60):
        self.fail_threshold = fail_threshold
        self.reset_timeout = reset_timeout
        self.failures = 0
        self.state = "closed"  # closed, open
        self.last_failure_time = None

    def __enter__(self):
        if self.state == "open":
            if self.last_failure_time and time.time() - self.last_failure_time > self.reset_timeout:
                self.state = "closed"
                self.failures = 0
            else:
                raise Exception("Circuit breaker is open")
        return self

    def __exit__(self, exc_type, exc_val, exc_tb):
        if exc_type is not None:
            self.failures += 1
            self.last_failure_time = time.time()
            if self.failures >= self.fail_threshold:
                self.state = "open"
            return False
        return True
```

The breaker is used as a context manager: `with breaker: op()`.  The only
states are the strings `"closed"` and `"open"`.
-/

inductive CBState where
  | closed : CBState
  | opened : CBState
deriving DecidableEq, Repr

structure CircuitBreaker where
  failThreshold : Nat
  resetTimeout : Nat
  failures : Nat
  state : CBState
  lastFailureTime : Option Nat
deriving DecidableEq, Repr

/-- `CircuitBreaker(fail_threshold, reset_timeout)` freshly constructed. -/
def CircuitBreaker.mkFresh (failThreshold resetTimeout : Nat) : CircuitBreaker :=
  { failThreshold := failThreshold, resetTimeout := resetTimeout,
    failures := 0, state := .closed, lastFailureTime := none }

/-- `__enter__` at wall-clock time `now`.  `Except.error ()` models the raised
`Exception("Circuit breaker is open")`.  The Python guard
`if self.last_failure_time and ...` treats `None` and `0.0` as falsy, hence
the `t != 0` conjunct. -/
def CircuitBreaker.enter (cb : CircuitBreaker) (now : Nat) :
    Except Unit CircuitBreaker :=
  match cb.state with
  | .closed => .ok cb
  | .opened =>
    match cb.lastFailureTime with
    | some t =>
      if t != 0 && now - t > cb.resetTimeout then
        .ok { cb with state := .closed, failures := 0 }
      else
        .error ()
    | none => .error ()

/-- `__exit__` at time `now`; `failed` is whether the body raised. -/
def CircuitBreaker.exitCM (cb : CircuitBreaker) (failed : Bool) (now : Nat) :
    CircuitBreaker :=
  if failed then
    let f := cb.failures + 1
    { cb with failures := f, lastFailureTime := some now,
              state := if cb.failThreshold ≤ f then .opened else cb.state }
  else cb

/-- Outcome of one `with breaker: op()` call.  `invoked` records whether the
guarded operation ran at all, `ok` whether it succeeded. -/
structure CBCall where
  invoked : Bool
  ok : Bool
  cb : CircuitBreaker
deriving DecidableEq, Repr

/-- One guarded call at time `now`; `opFails` is the behaviour of the
underlying operation.  When `__enter__` raises, the operation is never
invoked and the breaker state is unchanged. -/
def CircuitBreaker.call (cb : CircuitBreaker) (now : Nat) (opFails : Bool) :
    CBCall :=
  match cb.enter now with
  | .error _ => ⟨false, false, cb⟩
  | .ok cb1 => ⟨true, !opFails, cb1.exitCM opFails now⟩

/-- A sequence of guarded calls whose operations all fail, at the given
times (used to drive the breaker to its threshold). -/
def CircuitBreaker.runFails (cb : CircuitBreaker) : List Nat → CircuitBreaker
  | [] => cb
  | t :: ts => ((cb.call t true).cb).runFails ts

/-! ### `src/reliability/rate_limiter.py`

```python
class RateLimiter:
    def __init__(self, limit=10, window=1.0):
        self.limit = limit
        self.window = window
        self.requests = deque()

    def allow_request(self):
        current_time = time.time()
        while self.requests and self.requests[0] < current_time - self.window:
            self.requests.popleft()
        if len(self.requests) >= self.limit:
            return False
        self.requests.append(current_time)
        return True
```
-/

structure RateLimiter where
  limit : Nat
  window : Nat
  requests : List Nat
deriving DecidableEq, Repr

def RateLimiter.mkFresh (limit window : Nat) : RateLimiter :=
  { limit := limit, window := window, requests := [] }

/-- The `while ... popleft()` prune loop removes the maximal prefix of
timestamps older than the window. -/
def RateLimiter.pruned (rl : RateLimiter) (now : Nat) : List Nat :=
  rl.requests.dropWhile (fun t => decide (t < now - rl.window))

/-- `allow_request` called at wall-clock time `now`. -/
def RateLimiter.allowRequest (rl : RateLimiter) (now : Nat) :
    Bool × RateLimiter :=
  let pruned := rl.pruned now
  if rl.limit ≤ pruned.length then
    (false, { rl with requests := pruned })
  else
    (true, { rl with requests := pruned ++ [now] })

/-- Run a sequence of `allow_request` calls at the given times, returning the
final limiter state and the per-call decisions. -/
def RateLimiter.run (rl : RateLimiter) : List Nat → RateLimiter × List Bool
  | [] => (rl, [])
  | t :: ts =>
    let (b, rl1) := rl.allowRequest t
    let (rlF, bs) := rl1.run ts
    (rlF, b :: bs)

/-- The timestamps of the admitted calls of a run. -/
def RateLimiter.admitted (rl : RateLimiter) : List Nat → List Nat
  | [] => []
  | t :: ts =>
    let (b, rl1) := rl.allowRequest t
    if b then t :: rl1.admitted ts else rl1.admitted ts

/-! ### `src/reliability/__init__.py` - `APIReliabilityWrapper.wrap`

```python
def wrap(self, func):
    @wraps(func)
    def wrapper(*args, **kwargs):
        start_time = time.time()
        for attempt in range(self.max_retries + 1):
            try:
                if not self.circuit_breaker.allow_request():
                    raise Exception("Service unavailable - circuit breaker open ...")
                if not self.rate_limiter.allow_request():
                    raise Exception("Rate limit exceeded ...")
                result = func(*args, **kwargs)
                self.circuit_breaker.record_success()
                return result
            except Exception as e:
                self.circuit_breaker.record_failure()
                if attempt == self.max_retries:
                    raise
                time.sleep(self.retry_delay * (2 ** attempt))
    return wrapper
```

`self.circuit_breaker` is an injected object used through the duck-typed
methods `allow_request` / `record_success` / `record_failure`; the wrapper is
therefore modelled generically over those three operations on an abstract
breaker state `gamma`, exactly mirroring the dynamic dispatch of the source.
The rate limiter is the concrete `RateLimiter` of
`src/reliability/rate_limiter.py`.  Sleeping advances the wall clock.
-/

/-- The duck-typed circuit-breaker interface consumed by `wrap`. -/
structure CBOps (γ : Type) where
  allowRequest : γ → Bool × γ
  recordSuccess : γ → γ
  recordFailure : γ → γ

/-- The exception raised by one attempt of the wrapper body. -/
inductive WrapErr (ε : Type) where
  | circuitOpenErr : WrapErr ε
  | rateLimited : WrapErr ε
  | opFailed : ε → WrapErr ε
deriving DecidableEq, Repr

/-- Mutable state threaded through the retry loop, plus observables:
how often the wrapped function was invoked, the sleeps performed, and the
number of loop iterations executed. -/
structure WrapSt (γ : Type) where
  cb : γ
  rl : RateLimiter
  now : Nat
  opCalls : Nat
  sleeps : List Nat
  iters : Nat

/-- One iteration of the `try` body: circuit check, then rate check, then the
call itself; `op k` is the outcome of the `k`-th invocation of `func`.
`record_failure` for the `except` branch is applied by the loop, not here. -/
def wrapAttempt {γ ε α : Type} (ops : CBOps γ) (op : Nat → Except ε α)
    (st : WrapSt γ) : Except (WrapErr ε) α × WrapSt γ :=
  let (allowed, cb1) := ops.allowRequest st.cb
  if !allowed then
    (.error .circuitOpenErr, { st with cb := cb1 })
  else
    let (rok, rl1) := st.rl.allowRequest st.now
    if !rok then
      (.error .rateLimited, { st with cb := cb1, rl := rl1 })
    else
      match op st.opCalls with
      | .ok v =>
        (.ok v, { st with cb := ops.recordSuccess cb1, rl := rl1,
                          opCalls := st.opCalls + 1 })
      | .error e =>
        (.error (.opFailed e), { st with cb := cb1, rl := rl1,
                                         opCalls := st.opCalls + 1 })

/-- The retry loop.  `fuel` is the number of remaining iterations
(`max_retries + 1` at the start); `i` is the Python `attempt` index, so
`attempt == max_retries` is exactly `fuel = 1`. -/
def wrapGo {γ ε α : Type} (ops : CBOps γ) (op : Nat → Except ε α)
    (retryDelay : Nat) : Nat → Nat → WrapSt γ → Except (WrapErr ε) α × WrapSt γ
  | 0, _, st => (.error .circuitOpenErr, st)
  | fuel + 1, i, st =>
    let st0 := { st with iters := st.iters + 1 }
    match wrapAttempt ops op st0 with
    | (.ok v, st1) => (.ok v, st1)
    | (.error e, st1) =>
      let st2 := { st1 with cb := ops.recordFailure st1.cb }
      if fuel = 0 then
        (.error e, st2)
      else
        let s := retryDelay * 2 ^ i
        wrapGo ops op retryDelay fuel (i + 1)
          { st2 with now := st2.now + s, sleeps := st2.sleeps ++ [s] }

/-- `wrapper(...)`: run the loop with `max_retries + 1` iterations of fuel
from attempt index 0.  (The loop always returns or re-raises before running
out of fuel, so the `fuel = 0` branch of `wrapGo` is unreachable.) -/
def wrapRun {γ ε α : Type} (ops : CBOps γ) (op : Nat → Except ε α)
    (maxRetries retryDelay : Nat) (cb0 : γ) (rl0 : RateLimiter) (now0 : Nat) :
    Except (WrapErr ε) α × WrapSt γ :=
  wrapGo ops op retryDelay (maxRetries + 1) 0
    { cb := cb0, rl := rl0, now := now0, opCalls := 0, sleeps := [], iters := 0 }

/-- A minimal instantiation of the duck-typed breaker interface used to
observe the wrapper control flow: the state is a fixed allow flag together
with a counter of `record_failure` calls. -/
def countingBreaker : CBOps (Bool × Nat) where
  allowRequest := fun s => (s.1, s)
  recordSuccess := fun s => s
  recordFailure := fun s => (s.1, s.2 + 1)

/-! ### `src/conversation_context.py` - role detection and stage machines

The keyword tables and the scoring below are transcribed from
`ConversationContextManager.detect_role`, `_update_sales_stage` and
`_update_support_issue_type`.  A count is
`sum(1 for keyword in keywords if keyword.lower() in message.lower())`.
-/

inductive Role where
  | sales : Role
  | support : Role
deriving DecidableEq, Repr

def salesKeywords : List String :=
  ["buy", "purchase", "price", "cost", "plan", "package", "offer", "deal",
   "subscription", "upgrade", "downgrade", "sign up", "tariff", "promotion",
   "discount", "sale", "interested in", "looking for", "available", "options"]

def supportKeywords : List String :=
  ["help", "issue", "problem", "trouble", "not working", "error", "fix",
   "broken", "slow", "outage", "down", "connection", "speed", "service",
   "technical", "support", "assistance", "ticket", "complaint"]

def salesCount (message : String) : Nat :=
  (salesKeywords.filter (fun kw => kwIn kw message)).length

def supportCount (message : String) : Nat :=
  (supportKeywords.filter (fun kw => kwIn kw message)).length

/-- `detect_role(conversation_id, message, history)`.  `previousRole` is the
stored role of the conversation (`"support"` when the conversation is
unknown); `history` is the list of history message contents
(`msg.get("content", "")`). -/
def detectRole (previousRole : Role) (message : String)
    (history : List String) : Role :=
  let sc := salesCount message
  let pc := supportCount message
  let base : Role :=
    if pc < sc then .sales
    else if sc < pc then .support
    else previousRole
  if history.isEmpty then base
  else
    let recent := history.drop (history.length - 3)
    let shc := (recent.map salesCount).sum
    let phc := (recent.map supportCount).sum
    if phc * 2 < shc then .sales
    else if shc * 2 < phc then .support
    else base

inductive SalesStage where
  | initial : SalesStage
  | discovery : SalesStage
  | presentation : SalesStage
  | objectionHandling : SalesStage
  | closing : SalesStage
  | followUp : SalesStage
deriving DecidableEq, Repr

/-- Position in the fixed ordering
`initial → discovery → presentation → objection_handling → closing → follow_up`. -/
def SalesStage.toNat : SalesStage → Nat
  | .initial => 0
  | .discovery => 1
  | .presentation => 2
  | .objectionHandling => 3
  | .closing => 4
  | .followUp => 5

/-- `_update_sales_stage`, as a function of the current stage and the
message: each branch tests a keyword set against `message.lower()` and moves
forward one step at most. -/
def updateSalesStage (stage : SalesStage) (message : String) : SalesStage :=
  match stage with
  | .initial =>
    if ["what", "which", "how much", "tell me about", "options"].any
        (fun kw => kwIn kw message) then .discovery else .initial
  | .discovery =>
    if ["details", "features", "benefits", "specific", "that plan"].any
        (fun kw => kwIn kw message) then .presentation else .discovery
  | .presentation =>
    if ["expensive", "too much", "concern", "not sure", "competitor"].any
        (fun kw => kwIn kw message) then .objectionHandling else .presentation
  | .objectionHandling =>
    if ["sign up", "get started", "purchase", "buy", "proceed"].any
        (fun kw => kwIn kw message) then .closing else .objectionHandling
  | .closing =>
    if ["thank you", "received", "confirmation", "done"].any
        (fun kw => kwIn kw message) then .followUp else .closing
  | .followUp => .followUp

/-- The stage trace observed over a message sequence (current stage first). -/
def salesStageTrace (stage : SalesStage) (msgs : List String) : List SalesStage :=
  msgs.scanl updateSalesStage stage

inductive IssueType where
  | general : IssueType
  | connectivity : IssueType
  | speed : IssueType
  | billing : IssueType
  | technical : IssueType
  | account : IssueType
deriving DecidableEq, Repr

/-- `_update_support_issue_type`: first keyword-set match in the fixed
iteration order of the `issue_types` dict wins; no match keeps the current
type. -/
def updateSupportIssueType (current : IssueType) (message : String) : IssueType :=
  if ["can\x27t connect", "no internet", "offline", "disconnected",
      "no signal"].any (fun kw => kwIn kw message) then .connectivity
  else if ["slow", "speed", "bandwidth", "buffering", "lagging"].any
      (fun kw => kwIn kw message) then .speed
  else if ["bill", "payment", "charge", "invoice", "overcharged", "credit"].any
      (fun kw => kwIn kw message) then .billing
  else if ["router", "modem", "device", "setup", "configuration",
      "settings"].any (fun kw => kwIn kw message) then .technical
  else if ["password", "login", "account", "profile", "details",
      "information"].any (fun kw => kwIn kw message) then .account
  else current

/-- The part of a stored conversation context relevant to classification
(`customer_info` extraction mutates unrelated fields and is omitted). -/
structure ConvContext where
  role : Role
  salesStage : Option SalesStage
  supportIssueType : Option IssueType
  messagesCount : Nat
deriving DecidableEq, Repr

/-- `get_role_context` for a conversation with no stored context and no
history: the context is freshly initialised for the detected role and then
the role-specific stage update runs on the same message. -/
def getRoleContextFresh (message : String) : ConvContext :=
  let role := detectRole .support message []
  let ctx : ConvContext :=
    { role := role,
      salesStage := if role = .sales then some .initial else none,
      supportIssueType := if role = .support then some .general else none,
      messagesCount := 1 }
  match role with
  | .sales =>
    { ctx with salesStage := some (updateSalesStage .initial message) }
  | .support =>
    let it := updateSupportIssueType .general message
    { ctx with supportIssueType := some it }

/-! ### Entity extraction - `extract_entity_ids`

`src/langchain_integration.py` (lines 198-238) uses these case-insensitive
patterns, evaluated by `re.search` (leftmost match; the capture group is
`group(1)`):

* customer: `(?i)customer(?:\s+id)?(?:\s+is)?[:\s]+([A-Z]+-\d+)`
* order:    `(?i)(?:order|ORD)(?:\s+id)?(?:\s+is)?[:\s]+([A-Z]+-\d+)`,
  with the fallback `(?i)(?:with|for|my)\s+order\s+([A-Z]+-\d+)` when the
  first finds nothing
* device:   `(?i)device(?:\s+id)?(?:\s+is)?[:\s]+([A-Z]+-\d+)`
* site:     `(?i)site(?:\s+id)?(?:\s+is)?[:\s]+([A-Z]+-\d+)`

`src/agents/dual_role_agent.py` (lines 348-382) uses the same four patterns
without the `(?:\s+is)?` group, with plain `order` and no fallback pattern.

The embedding below is a specialised backtracking matcher.  Greedy `\s+`,
`[:\s]+`, `[A-Z]+` and `\d+` runs are modelled by maximal munch
(`dropWhile`/`takeWhile`); this is exact because in each pattern the token
following such a run can never match a character of the run's class
(`id`/`is`/`order` start with a letter, the capture starts with a letter,
`-` is neither a letter nor a digit), so shorter munches always fail.
Backtracking over the two optional groups and over literal alternations is
explicit via `<|>`, in the same order the regex engine explores.
-/

def isSpaceCh (c : Char) : Bool :=
  c == ' ' || c == '\t' || c == '\n' || c == '\r' || c == '\x0b' || c == '\x0c'

def isColonSpaceCh (c : Char) : Bool := c == ':' || isSpaceCh c

def isAsciiLetter (c : Char) : Bool :=
  ('A' ≤ c && c ≤ 'Z') || ('a' ≤ c && c ≤ 'z')

def isDigitCh (c : Char) : Bool := '0' ≤ c && c ≤ '9'

/-- Consume a literal case-insensitively (`pat` given in lower case). -/
def eatLit : List Char → List Char → Option (List Char)
  | [], s => some s
  | _ :: _, [] => none
  | p :: ps, c :: cs => if c.toLower == p then eatLit ps cs else none

/-- `\s+` followed by a literal. -/
def eatWsLit (w : List Char) : List Char → Option (List Char)
  | [] => none
  | c :: cs =>
    if isSpaceCh c then eatLit w (cs.dropWhile isSpaceCh) else none

/-- The capture group `([A-Z]+-\d+)` under `(?i)`; the returned value
preserves the original casing of the matched token. -/
def eatCapture (s : List Char) : Option String :=
  let letters := s.takeWhile isAsciiLetter
  if letters.isEmpty then none
  else
    match s.drop letters.length with
    | '-' :: rest =>
      let digits := rest.takeWhile isDigitCh
      if digits.isEmpty then none
      else some (String.mk (letters ++ '-' :: digits))
    | _ => none

/-- `[:\s]+` followed by the capture group. -/
def eatSepCapture : List Char → Option String
  | [] => none
  | c :: cs =>
    if isColonSpaceCh c then eatCapture (cs.dropWhile isColonSpaceCh) else none

/-- `\s+` followed by the capture group. -/
def eatWsCapture : List Char → Option String
  | [] => none
  | c :: cs =>
    if isSpaceCh c then eatCapture (cs.dropWhile isSpaceCh) else none

/-- `(?:\s+id)?(?:\s+is)?[:\s]+([A-Z]+-\d+)` with backtracking over the two
optional groups (greedy: with-id/with-is, with-id/no-is, no-id/with-is,
no-id/no-is). -/
def eatTailIs (s : List Char) : Option String :=
  (eatWsLit "id".data s >>= fun s1 =>
    (eatWsLit "is".data s1 >>= eatSepCapture) <|> eatSepCapture s1)
  <|> (eatWsLit "is".data s >>= eatSepCapture)
  <|> eatSepCapture s

/-- `(?:\s+id)?[:\s]+([A-Z]+-\d+)` (the dual-role agent variant). -/
def eatTailNoIs (s : List Char) : Option String :=
  (eatWsLit "id".data s >>= eatSepCapture) <|> eatSepCapture s

/-- `re.search`: try the pattern at each start position, leftmost first. -/
def searchPos (attempt : List Char → Option String) : List Char → Option String
  | [] => attempt []
  | c :: cs => attempt (c :: cs) <|> searchPos attempt cs

/-- The fallback order pattern `(?:with|for|my)\s+order\s+([A-Z]+-\d+)`,
at one position. -/
def orderAltAttempt (s : List Char) : Option String :=
  (eatLit "with".data s >>= fun s1 => eatWsLit "order".data s1 >>= eatWsCapture)
  <|> (eatLit "for".data s >>= fun s1 => eatWsLit "order".data s1 >>= eatWsCapture)
  <|> (eatLit "my".data s >>= fun s1 => eatWsLit "order".data s1 >>= eatWsCapture)

/-- `extract_entity_ids` of `src/langchain_integration.py`. -/
def langExtractEntityIds (message : String) : List (String × String) :=
  let m := message.data
  let cust := searchPos (fun s => eatLit "customer".data s >>= eatTailIs) m
  let ord0 := searchPos
    (fun s => (eatLit "order".data s >>= eatTailIs)
      <|> (eatLit "ord".data s >>= eatTailIs)) m
  let ord := ord0 <|> searchPos orderAltAttempt m
  let dev := searchPos (fun s => eatLit "device".data s >>= eatTailIs) m
  let site := searchPos (fun s => eatLit "site".data s >>= eatTailIs) m
  (match cust with | some v => [("customer_id", v)] | none => [])
  ++ (match ord with | some v => [("order_id", v)] | none => [])
  ++ (match dev with | some v => [("device_id", v)] | none => [])
  ++ (match site with | some v => [("site_id", v)] | none => [])

/-- `DualRoleAgent.extract_entity_ids` of `src/agents/dual_role_agent.py`. -/
def dualExtractEntityIds (message : String) : List (String × String) :=
  let m := message.data
  let cust := searchPos (fun s => eatLit "customer".data s >>= eatTailNoIs) m
  let ord := searchPos (fun s => eatLit "order".data s >>= eatTailNoIs) m
  let dev := searchPos (fun s => eatLit "device".data s >>= eatTailNoIs) m
  let site := searchPos (fun s => eatLit "site".data s >>= eatTailNoIs) m
  (match cust with | some v => [("customer_id", v)] | none => [])
  ++ (match ord with | some v => [("order_id", v)] | none => [])
  ++ (match dev with | some v => [("device_id", v)] | none => [])
  ++ (match site with | some v => [("site_id", v)] | none => [])

/-! ### `src/semantic_cache.py`

```python
class SemanticCache:
    def __init__(self, name, ttl=3600):
        self.ttl = ttl
        self.cache = {}

    def get(self, key):
        if key not in self.cache:
            return None
        entry = self.cache[key]
        if time.time() > entry["expiry"]:
            del self.cache[key]
            return None
        return entry["value"]

    def set(self, key, value):
        self.cache[key] = {"value": value, "expiry": time.time() + self.ttl}
```

Note `set` takes exactly two arguments besides `self`.
-/

def assocGet {β : Type} : List (String × β) → String → Option β
  | [], _ => none
  | (k0, v0) :: rest, k => if k0 = k then some v0 else assocGet rest k

def assocSet {β : Type} : List (String × β) → String → β → List (String × β)
  | [], k, v => [(k, v)]
  | (k0, v0) :: rest, k, v =>
    if k0 = k then (k0, v) :: rest else (k0, v0) :: assocSet rest k v

def assocDel {β : Type} : List (String × β) → String → List (String × β)
  | [], _ => []
  | (k0, v0) :: rest, k => if k0 = k then rest else (k0, v0) :: assocDel rest k

structure CacheEntry (α : Type) where
  value : α
  expiry : Nat
deriving DecidableEq, Repr

structure SemanticCache (α : Type) where
  ttl : Nat
  entries : List (String × CacheEntry α)
deriving DecidableEq, Repr

def SemanticCache.mkFresh (α : Type) (ttl : Nat) : SemanticCache α :=
  { ttl := ttl, entries := [] }

/-- `get` at wall-clock time `now`; an expired entry is evicted and reported
absent. -/
def SemanticCache.get {α : Type} (c : SemanticCache α) (key : String)
    (now : Nat) : Option α × SemanticCache α :=
  match assocGet c.entries key with
  | none => (none, c)
  | some e =>
    if e.expiry < now then (none, { c with entries := assocDel c.entries key })
    else (some e.value, c)

/-- `set` at wall-clock time `now` (unconditional overwrite). -/
def SemanticCache.set {α : Type} (c : SemanticCache α) (key : String)
    (value : α) (now : Nat) : SemanticCache α :=
  { c with entries := assocSet c.entries key ⟨value, now + c.ttl⟩ }

/-! ### `src/agents/dual_role_agent.py` - `DualRoleAgent.process_message`

The model covers calls with `context_data=None` (the tuple used by the
idempotence claims).  Control flow of the source, in order:

1. `extract_entity_ids(message)`; a non-empty result is inserted into
   `context_data`, making it a non-empty dict.
2. invalid-role check: roles other than the configured `"sales"`/`"support"`
   return an error message without touching the generator.
3. `cache_key = f"<role>:<message>"`; when `context_data` is truthy the
   source appends `f":<hash(frozenset(context_data.items()))>"` - but
   `context_data["entities"]` is a dict, which is unhashable, so this line
   raises an uncaught `TypeError`.
4. `semantic_cache.get(cache_key)`: a truthy cached value flows into
   `cached_response.get("cache_info", ...)` - but `SemanticCache` values
   reaching this key are the plain strings passed to `set`, and `str` has no
   `get` method, so a hit raises an uncaught `AttributeError`.
5. On a miss the agent graph runs.  On generator success the source calls
   `semantic_cache.set(cache_key, response_content, metadata)` - three
   arguments against a two-parameter method - which raises `TypeError`
   inside the `try`, lands in `except Exception`, and returns the fixed
   error message; nothing is ever cached.  A raised generator error lands in
   the same `except`; an empty stream returns the fixed
   could-not-process message.
-/

inductive PyError where
  | typeError : PyError
  | attributeError : PyError
deriving DecidableEq, Repr

/-- Behaviour of `agent_graph.stream` for one invocation. -/
inductive GenOutcome where
  | success : String → GenOutcome
  | empty : GenOutcome
  | raises : String → GenOutcome
deriving DecidableEq, Repr

/-- Metadata values (the dict is heterogeneous in Python). -/
inductive MVal where
  | s : String → MVal
  | n : Nat → MVal
  | b : Bool → MVal
  | dict : List (String × String) → MVal
deriving DecidableEq, Repr

def processingErrorMsg : String :=
  "I\x27m sorry, I encountered an error while processing your request. Please try again or contact customer support for assistance."

def emptyResponseMsg : String :=
  "I\x27m sorry, I couldn\x27t process your request."

def invalidRoleMsg (role : String) : String :=
  "Invalid role: " ++ role ++ ". Must be one of: [\x27sales\x27, \x27support\x27]"

structure DualResult where
  response : String
  metadata : List (String × MVal)
  cache : SemanticCache String
  genCalls : Nat
deriving DecidableEq, Repr

/-- `DualRoleAgent.process_message(message, role, context_data=None)` at time
`now`, with `uuid` the generated conversation id and `gen` the behaviour of
the agent graph.  `Except.error` models an exception escaping the method. -/
def dualProcessMessage (uuid : String) (now : Nat)
    (cache : SemanticCache String) (gen : GenOutcome)
    (message role : String) : Except PyError DualResult :=
  let entities := dualExtractEntityIds message
  let meta0 : List (String × MVal) :=
    [("conversation_id", .s uuid), ("role", .s role),
     ("message_length", .n message.length),
     ("context_data_provided", .b false)]
  let meta := if entities.isEmpty then meta0
              else meta0 ++ [("extracted_entities", .dict entities)]
  if ¬ (role = "sales" ∨ role = "support") then
    .ok { response := invalidRoleMsg role, metadata := meta,
          cache := cache, genCalls := 0 }
  else if ¬ entities.isEmpty then
    -- step 3: hash(frozenset(...)) over a dict-valued item
    .error .typeError
  else
    let key := role ++ ":" ++ message
    let (got, cache1) := cache.get key now
    match got with
    | some v =>
      if v = "" then
        -- a falsy cached value is treated as a miss by `if cached_response:`
        dualMiss meta cache1 gen
      else
        -- step 4: `cached_response.get(...)` on a str
        .error .attributeError
    | none => dualMiss meta cache1 gen
where
  /-- The cache-miss continuation: run the generator (steps 5). -/
  dualMiss (meta : List (String × MVal)) (cache1 : SemanticCache String)
      (gen : GenOutcome) : Except PyError DualResult :=
    match gen with
    | .success _ =>
      -- `semantic_cache.set(key, content, metadata)`: TypeError, caught
      .ok { response := processingErrorMsg, metadata := meta,
            cache := cache1, genCalls := 1 }
    | .empty =>
      .ok { response := emptyResponseMsg, metadata := meta,
            cache := cache1, genCalls := 1 }
    | .raises _ =>
      .ok { response := processingErrorMsg, metadata := meta,
            cache := cache1, genCalls := 1 }

/-! ### `src/langchain_integration.py` - `process_message` (lines 240-397)

The dispatcher wraps everything after entity extraction in
`try ... except Exception`, and that in an outer `try ... except Exception`;
on an inner exception (agent errors, and every tool failure surfacing
through the agent: circuit-open, rate-limit and exhausted-retry exceptions)
it returns a fixed fallback string; the metadata dict it builds is local and
is dropped on every path - the function returns only the response string.
-/

def dispFallbackMsg : String :=
  "I\x27m sorry, but I encountered an error while processing your request. Please try again or contact customer support for assistance."

def dispOuterFallbackMsg : String :=
  "I\x27m sorry, but I encountered an unexpected error. Please try again later."

/-- `process_message`, as a function of the outcome of the role agent call
(`Except.error e` models `sales_agent`/`support_agent.process_message`
raising `e`; `Except.ok` carries its `(response, metadata)` pair).  The
result is always a plain string: no exception propagates and no metadata is
returned. -/
def langProcessMessage
    (agentOutcome : Except String (String × List (String × MVal))) : String :=
  match agentOutcome with
  | .ok (resp, _) => resp
  | .error _ => dispFallbackMsg

/-! ## Shared helper lemmas -/

theorem dropWhileLen_le {α : Type} (p : α → Bool) (l : List α) :
    (l.dropWhile p).length ≤ l.length :=
  (List.dropWhile_sublist p).length_le

theorem dropWhile_dropWhile_of_imp {α : Type} (p q : α → Bool)
    (h : ∀ x, q x = true → p x = true) :
    ∀ l : List α, (l.dropWhile q).dropWhile p = l.dropWhile p := by
  intro l
  induction l with
  | nil => rfl
  | cons c cs ih =>
    by_cases hq : q c = true
    · rw [List.dropWhile_cons_of_pos hq, ih,
        List.dropWhile_cons_of_pos (h c hq)]
    · rw [List.dropWhile_cons_of_neg hq]

theorem dropWhile_eq_filter_of_sorted :
    ∀ (l : List Nat) (a : Nat), List.Sorted (· ≤ ·) l →
    l.dropWhile (fun x => decide (x < a)) = l.filter (fun x => ! decide (x < a)) := by
  intro l a hl
  induction l with
  | nil => rfl
  | cons c cs ih =>
    rcases List.sorted_cons.mp hl with ⟨hc, hcs⟩
    by_cases h : c < a
    · rw [List.dropWhile_cons_of_pos (by simpa using h),
        List.filter_cons_of_neg (by simpa using h)]
      exact ih hcs
    · rw [List.dropWhile_cons_of_neg (by simpa using h),
        List.filter_cons_of_pos (by simpa using h)]
      have : List.filter (fun x => ! decide (x < a)) cs = cs :=
        List.filter_eq_self.mpr (fun b hb => by
          have : a ≤ b := le_trans (le_of_not_lt h) (hc b hb)
          simpa using not_lt_of_le this)
      rw [this]

theorem filterLen_mono {α : Type} (l : List α) (p q : α → Bool)
    (h : ∀ x, p x = true → q x = true) :
    (l.filter p).length ≤ (l.filter q).length :=
  (List.monotone_filter_right l h).length_le

theorem chain_scanl {α β : Type} {r : α → α → Prop} (f : α → β → α)
    (h : ∀ a b, r a (f a b)) :
    ∀ (l : List β) (a : α), List.Chain' r (List.scanl f a l) := by
  intro l
  induction l with
  | nil => intro a; simp [List.scanl]
  | cons x xs ih =>
    intro a
    rw [List.scanl_cons]
    refine List.chain'_cons'.mpr ⟨?_, ih (f a x)⟩
    intro y hy
    cases xs with
    | nil => simp [List.scanl] at hy; subst hy; exact h a x
    | cons z zs =>
      rw [List.scanl_cons] at hy
      simp at hy
      subst hy
      exact h a x

/-! ## Claim C5 -/

/-- Claim C5: for messages processed in the Sales role, the stage sequence is
non-decreasing under the ordering Initial, Discovery, Presentation,
ObjectionHandling, Closing, FollowUp; each message advances the stage by at
most one step, so it never skips a step and never regresses. -/
theorem salesStage_monotone_one_step :
    (∀ (s : SalesStage) (msg : String),
      s.toNat ≤ (updateSalesStage s msg).toNat ∧
      (updateSalesStage s msg).toNat ≤ s.toNat + 1) ∧
    (∀ (s : SalesStage) (msgs : List String),
      List.Chain' (fun a b : SalesStage => a.toNat ≤ b.toNat)
        (salesStageTrace s msgs)) := by
  have hstep : ∀ (s : SalesStage) (msg : String),
      s.toNat ≤ (updateSalesStage s msg).toNat ∧
      (updateSalesStage s msg).toNat ≤ s.toNat + 1 := by
    intro s msg
    cases s <;> simp only [updateSalesStage] <;>
      first
        | (split <;> simp [SalesStage.toNat])
        | simp [SalesStage.toNat]
  refine ⟨hstep, ?_⟩
  intro s msgs
  exact chain_scanl updateSalesStage (fun a m => (hstep a m).1) msgs s

/-! ## Claim C6 -/

/-- Claim C6 counterexample: the message "options" matches only sales-intent
keywords (one sales keyword, zero support keywords), is classified as Sales
on a fresh conversation, but the resulting sales stage is Discovery, not
Initial - "options" is also among the Initial-stage advance keywords of
`_update_sales_stage`, which runs on the same message right after the
context is initialised. -/
theorem salesOnly_fresh_stage_cex :
    1 ≤ salesCount "options" ∧ supportCount "options" = 0 ∧
    (getRoleContextFresh "options").role = Role.sales ∧
    (getRoleContextFresh "options").salesStage = some SalesStage.discovery ∧
    (getRoleContextFresh "options").salesStage ≠ some SalesStage.initial := by
  decide

/-- Claim C6 (amended): for a message matching at least one sales-intent
keyword and no support keyword, processed with no prior stored context and
no history, the resolved role is Sales and the resulting sales stage is
Initial - unless the message also contains one of the Initial-stage advance
keywords (what / which / how much / tell me about / options), in which case
it is Discovery. -/
theorem salesOnly_fresh_classification (msg : String)
    (hs : 1 ≤ salesCount msg) (hp : supportCount msg = 0) :
    (getRoleContextFresh msg).role = Role.sales ∧
    (getRoleContextFresh msg).salesStage =
      some (if ["what", "which", "how much", "tell me about", "options"].any
              (fun kw => kwIn kw msg)
            then SalesStage.discovery else SalesStage.initial) := by
  have hrole : detectRole Role.support msg [] = Role.sales := by
    unfold detectRole
    have hlt : supportCount msg < salesCount msg := by omega
    simp [hlt]
  constructor
  · unfold getRoleContextFresh
    rw [hrole]
  · unfold getRoleContextFresh
    rw [hrole]
    simp [updateSalesStage]

/-- Witness for `salesOnly_fresh_classification` at the message "buy". -/
theorem salesOnly_fresh_classification_witness :
    (getRoleContextFresh "buy").role = Role.sales ∧
    (getRoleContextFresh "buy").salesStage =
      some (if ["what", "which", "how much", "tell me about", "options"].any
              (fun kw => kwIn kw "buy")
            then SalesStage.discovery else SalesStage.initial) :=
  salesOnly_fresh_classification "buy" (by decide) (by decide)

/-! ## Claim C10 -/

/-- Claim C10: a request rejected by the rate limiter consumes no quota -
when `allow_request` returns `False` the timestamp queue is exactly the
pruned queue (nothing is appended), and consequently a later request (at any
time at least as late) gets exactly the decision and state it would have had
if the rejected attempt had never happened. -/
theorem rateLimiter_reject_frame (rl : RateLimiter) (now t2 : Nat)
    (hrej : (rl.allowRequest now).1 = false) (hle : now ≤ t2) :
    (rl.allowRequest now).2.requests = rl.pruned now ∧
    (rl.allowRequest now).2.allowRequest t2 = rl.allowRequest t2 := by
  have hcase : rl.limit ≤ (rl.pruned now).length := by
    by_contra h
    unfold RateLimiter.allowRequest at hrej
    simp only [if_neg h] at hrej
    exact Bool.noConfusion hrej
  have hstate : (rl.allowRequest now).2 = { rl with requests := rl.pruned now } := by
    unfold RateLimiter.allowRequest
    simp only [if_pos hcase]
  refine ⟨by rw [hstate], ?_⟩
  rw [hstate]
  have hprune : ({ rl with requests := rl.pruned now } : RateLimiter).pruned t2 =
      rl.pruned t2 := by
    unfold RateLimiter.pruned
    exact dropWhile_dropWhile_of_imp _ _
      (fun x hx => by
        simp only [decide_eq_true_eq] at hx ⊢
        exact lt_of_lt_of_le hx (Nat.sub_le_sub_right hle _)) rl.requests
  unfold RateLimiter.allowRequest
  rw [hprune]

/-- Witness for `rateLimiter_reject_frame`: a limiter at its limit rejects
the call at time 3 and leaves the queue exactly pruned. -/
theorem rateLimiter_reject_frame_witness :
    (({ limit := 1, window := 5, requests := [2] } : RateLimiter).allowRequest 3).2.requests =
      ({ limit := 1, window := 5, requests := [2] } : RateLimiter).pruned 3 ∧
    (({ limit := 1, window := 5, requests := [2] } : RateLimiter).allowRequest 3).2.allowRequest 4 =
      ({ limit := 1, window := 5, requests := [2] } : RateLimiter).allowRequest 4 :=
  rateLimiter_reject_frame { limit := 1, window := 5, requests := [2] } 3 4
    (by decide) (by decide)

/-! ## Claim C9 -/

theorem searchPos_leftmost {attempt : List Char → Option String} :
    ∀ (l : List Char) (k : Nat) (v : String),
    attempt (l.drop k) = some v →
    (∀ j, j < k → attempt (l.drop j) = none) →
    searchPos attempt l = some v := by
  intro l
  induction l with
  | nil =>
    intro k v hk hnone
    cases k with
    | zero => simpa [searchPos] using hk
    | succ k' =>
      have h0 := hnone 0 (Nat.succ_pos k')
      simp only [List.drop_nil] at h0 hk
      rw [h0] at hk
      exact Option.noConfusion hk
  | cons c cs ih =>
    intro k v hk hnone
    cases k with
    | zero =>
      simp only [List.drop_zero] at hk
      simp [searchPos, hk]
    | succ k' =>
      have h0 := hnone 0 (Nat.succ_pos k')
      simp only [List.drop_zero] at h0
      simp only [List.drop_succ_cons] at hk
      simp only [searchPos, h0, Option.none_orElse]
      exact ih k' v hk (fun j hj => by
        have := hnone (j + 1) (Nat.succ_lt_succ hj)
        simpa using this)

/-- Claim C9: entity extraction on "My customer ID is CUS-54321" yields
exactly the customer-id mapping; an input matching no pattern yields the
empty mapping (and the extractor is a total function, so it never fails);
and `re.search` semantics - formalised by the leftmost-match property of
`searchPos`, the position scan used by every pattern - extract only the
first (left-to-right) match when several values of the same entity type
appear, as on the repeated-customer input. -/
theorem extractEntityIds_spec :
    langExtractEntityIds "My customer ID is CUS-54321" =
      [("customer_id", "CUS-54321")] ∧
    langExtractEntityIds "hello there" = [] ∧
    langExtractEntityIds "customer: AAA-1 and customer: BBB-2" =
      [("customer_id", "AAA-1")] ∧
    (∀ (attempt : List Char → Option String) (l : List Char) (k : Nat)
        (v : String),
      attempt (l.drop k) = some v →
      (∀ j, j < k → attempt (l.drop j) = none) →
      searchPos attempt l = some v) := by
  refine ⟨by decide, by decide, by decide, ?_⟩
  intro attempt l k v hk hnone
  exact searchPos_leftmost l k v hk hnone

/-- Witness for `extractEntityIds_spec`: the leftmost-match property applied
at position 0 of a concrete message. -/
theorem extractEntityIds_spec_witness :
    searchPos (fun s => eatLit "customer".data s >>= eatTailIs)
      "customer: A-1".data = some "A-1" :=
  extractEntityIds_spec.2.2.2 _ "customer: A-1".data 0 "A-1" (by decide)
    (fun j hj => absurd hj (Nat.not_lt_zero j))

/-! ## Claim C1 -/

/-- Claim C1 counterexample (threshold 2, reset timeout 10): two failures at
times 1 and 2 open the breaker; at time 5 the call is rejected; at time 20
the timeout has elapsed and the probe call is admitted - but the breaker
transitions directly to Closed with zero failures (there is no HalfOpen
state), so even though the probe fails, the next call at time 21 is
attempted as well: it is not the case that exactly one subsequent call is
attempted as a probe. -/
theorem circuitBreaker_halfopen_cex :
    (((CircuitBreaker.mkFresh 2 10).call 1 true).cb.call 2 true).cb.state =
      CBState.opened ∧
    ((((CircuitBreaker.mkFresh 2 10).call 1 true).cb.call 2 true).cb.call 5
      true).invoked = false ∧
    (((((CircuitBreaker.mkFresh 2 10).call 1 true).cb.call 2 true).cb.call 20
      true).invoked = true ∧
     ((((CircuitBreaker.mkFresh 2 10).call 1 true).cb.call 2 true).cb.call 20
      true).cb.state = CBState.closed ∧
     ((((CircuitBreaker.mkFresh 2 10).call 1 true).cb.call 2 true).cb.call 20
      true).cb.failures = 1) ∧
    (((((CircuitBreaker.mkFresh 2 10).call 1 true).cb.call 2 true).cb.call 20
      true).cb.call 21 true).invoked = true := by
  decide

theorem runFails_append (l1 l2 : List Nat) :
    ∀ cb : CircuitBreaker,
    cb.runFails (l1 ++ l2) = (cb.runFails l1).runFails l2 := by
  induction l1 with
  | nil => intro cb; rfl
  | cons t ts ih =>
    intro cb
    simp only [List.cons_append, CircuitBreaker.runFails]
    exact ih _

/-- While the failure count stays strictly below the threshold, a run of
failing calls keeps the breaker closed and increments the count once per
call (every call is invoked). -/
theorem runFails_closed (ts : List Nat) :
    ∀ cb : CircuitBreaker, cb.state = CBState.closed →
    cb.failures + ts.length < cb.failThreshold →
    (cb.runFails ts).failures = cb.failures + ts.length ∧
    (cb.runFails ts).state = CBState.closed ∧
    (cb.runFails ts).failThreshold = cb.failThreshold ∧
    (cb.runFails ts).resetTimeout = cb.resetTimeout := by
  induction ts with
  | nil => intro cb h1 _; exact ⟨rfl, h1, rfl, rfl⟩
  | cons t ts ih =>
    intro cb h1 h2
    simp only [List.length_cons] at h2
    have hth : ¬ cb.failThreshold ≤ cb.failures + 1 := by omega
    have hcall : (cb.call t true).cb =
        { cb with failures := cb.failures + 1, lastFailureTime := some t } := by
      simp [CircuitBreaker.call, CircuitBreaker.enter, CircuitBreaker.exitCM,
        h1, hth]
    simp only [CircuitBreaker.runFails]
    rw [hcall]
    have := ih { cb with failures := cb.failures + 1, lastFailureTime := some t }
      h1 (by simpa using (by omega : cb.failures + 1 + ts.length < cb.failThreshold))
    refine ⟨?_, this.2.1, this.2.2.1, this.2.2.2⟩
    rw [this.1]
    simp only [List.length_cons]
    omega

/-- Claim C1 (amended): after `failThreshold` consecutive failures (the last
one at time `L`) the breaker is Open with `failures = failThreshold` and
`lastFailureTime = L`; while `now - L ≤ resetTimeout` every call fails fast
- the underlying operation is not invoked and the state is unchanged.  Once
`resetTimeout` has strictly elapsed, the transition happens on the next
probe, not automatically - but it goes directly to Closed with the failure
count reset to zero (there is no HalfOpen state), so after a successful
probe all subsequent calls are attempted, not exactly one. -/
theorem circuitBreaker_failfast_reset (th reset L : Nat) (ts : List Nat)
    (cbA : CircuitBreaker) (hlen : ts.length + 1 = th)
    (hA : cbA = (CircuitBreaker.mkFresh th reset).runFails (ts ++ [L])) :
    cbA = { failThreshold := th, resetTimeout := reset, failures := th,
            state := CBState.opened, lastFailureTime := some L } ∧
    (∀ now b, now - L ≤ reset →
      (cbA.call now b).invoked = false ∧ (cbA.call now b).cb = cbA) ∧
    (∀ now b, L ≠ 0 → reset < now - L → (cbA.call now b).invoked = true) ∧
    (∀ now, L ≠ 0 → reset < now - L →
      (cbA.call now false).cb = { cbA with state := CBState.closed,
                                           failures := 0 }) := by
  have hfresh : (CircuitBreaker.mkFresh th reset).state = CBState.closed := rfl
  have hbound : (CircuitBreaker.mkFresh th reset).failures + ts.length <
      (CircuitBreaker.mkFresh th reset).failThreshold := by
    simp [CircuitBreaker.mkFresh]; omega
  obtain ⟨h1, h2, h3, h4⟩ :=
    runFails_closed ts (CircuitBreaker.mkFresh th reset) hfresh hbound
  have hcall : ∀ cb : CircuitBreaker, cb.state = CBState.closed → ∀ t : Nat,
      (cb.call t true).cb =
        { cb with failures := cb.failures + 1, lastFailureTime := some t,
                  state := if cb.failThreshold ≤ cb.failures + 1 then
                             CBState.opened else CBState.closed } := by
    intro cb hs t
    simp [CircuitBreaker.call, CircuitBreaker.enter, CircuitBreaker.exitCM, hs]
  have h1' : ((CircuitBreaker.mkFresh th reset).runFails ts).failures =
      ts.length := by
    rw [h1]; simp [CircuitBreaker.mkFresh]
  have h3' : ((CircuitBreaker.mkFresh th reset).runFails ts).failThreshold =
      th := h3
  have h4' : ((CircuitBreaker.mkFresh th reset).runFails ts).resetTimeout =
      reset := h4
  have hfull : cbA = { failThreshold := th, resetTimeout := reset,
                       failures := th, state := CBState.opened,
                       lastFailureTime := some L } := by
    rw [hA, runFails_append]
    have hB : ((CircuitBreaker.mkFresh th reset).runFails ts).runFails [L] =
        (((CircuitBreaker.mkFresh th reset).runFails ts).call L true).cb := rfl
    rw [hB, hcall _ h2 L, h1', h3', h4', hlen]
    simp
  refine ⟨hfull, ?_, ?_, ?_⟩
  · intro now b hnow
    have hdec : decide (reset < now - L) = false :=
      decide_eq_false (not_lt.mpr hnow)
    rw [hfull]
    simp [CircuitBreaker.call, CircuitBreaker.enter, hdec]
  · intro now b hL hnow
    have hdec : decide (reset < now - L) = true := decide_eq_true hnow
    rw [hfull]
    simp [CircuitBreaker.call, CircuitBreaker.enter, CircuitBreaker.exitCM,
      hdec, hL]
  · intro now hL hnow
    have hdec : decide (reset < now - L) = true := decide_eq_true hnow
    rw [hfull]
    simp [CircuitBreaker.call, CircuitBreaker.enter, CircuitBreaker.exitCM,
      hdec, hL]

/-- Witness for `circuitBreaker_failfast_reset`: threshold 2, timeout 10,
failures at times 1 and 2, rejected probe at time 5, admitted probe at
time 20. -/
theorem circuitBreaker_failfast_reset_witness :
    ({ failThreshold := 2, resetTimeout := 10, failures := 2,
       state := CBState.opened, lastFailureTime := some 2 } : CircuitBreaker) =
      { failThreshold := 2, resetTimeout := 10, failures := 2,
        state := CBState.opened, lastFailureTime := some 2 } ∧
    ((({ failThreshold := 2, resetTimeout := 10, failures := 2,
         state := CBState.opened, lastFailureTime := some 2 } :
        CircuitBreaker).call 5 true).invoked = false ∧
      ((({ failThreshold := 2, resetTimeout := 10, failures := 2,
           state := CBState.opened, lastFailureTime := some 2 } :
          CircuitBreaker).call 5 true).cb =
        { failThreshold := 2, resetTimeout := 10, failures := 2,
          state := CBState.opened, lastFailureTime := some 2 })) ∧
    ((({ failThreshold := 2, resetTimeout := 10, failures := 2,
         state := CBState.opened, lastFailureTime := some 2 } :
        CircuitBreaker).call 20 true).invoked = true) := by
  have h := circuitBreaker_failfast_reset 2 10 2 [1]
    { failThreshold := 2, resetTimeout := 10, failures := 2,
      state := CBState.opened, lastFailureTime := some 2 }
    (by decide) (by decide)
  exact ⟨h.1, h.2.1 5 true (by decide), h.2.2.1 20 true (by decide) (by decide)⟩

/-! ## Claim C3 -/

/-- Claim C3 counterexample.  First run: an always-allowing breaker (counting
`record_failure` calls), a rate limiter with limit 0, `max_retries = 1`:
the rate-limited call is caught like any failure - it is retried (two
iterations, one backoff sleep) and it increments the breaker failure count
to 2 - and the wrapped function is never invoked.  Second run: a blocking
breaker together with a rate limiter that is over limit and holds a prunable
stale timestamp: the raised error is the circuit-open error and the rate
limiter state is untouched (the stale timestamp survives), so the circuit
check runs before the rate check, not after. -/
theorem wrap_rate_after_circuit_cex :
    ((wrapRun countingBreaker (fun _ => (.ok 42 : Except String Nat)) 1 1
        (true, 0) (RateLimiter.mkFresh 0 10) 100).1 =
      .error .rateLimited ∧
     (wrapRun countingBreaker (fun _ => (.ok 42 : Except String Nat)) 1 1
        (true, 0) (RateLimiter.mkFresh 0 10) 100).2.cb = (true, 2) ∧
     (wrapRun countingBreaker (fun _ => (.ok 42 : Except String Nat)) 1 1
        (true, 0) (RateLimiter.mkFresh 0 10) 100).2.sleeps = [1] ∧
     (wrapRun countingBreaker (fun _ => (.ok 42 : Except String Nat)) 1 1
        (true, 0) (RateLimiter.mkFresh 0 10) 100).2.opCalls = 0 ∧
     (wrapRun countingBreaker (fun _ => (.ok 42 : Except String Nat)) 1 1
        (true, 0) (RateLimiter.mkFresh 0 10) 100).2.iters = 2) ∧
    ((wrapRun countingBreaker (fun _ => (.ok 42 : Except String Nat)) 1 1
        (false, 0) { limit := 0, window := 10, requests := [5] } 100).1 =
      .error .circuitOpenErr ∧
     (wrapRun countingBreaker (fun _ => (.ok 42 : Except String Nat)) 1 1
        (false, 0) { limit := 0, window := 10, requests := [5] } 100).2.rl.requests =
      [5]) :=
  ⟨⟨rfl, rfl, rfl, rfl, rfl⟩, rfl, rfl⟩

/-- Shifting a geometric backoff schedule by one attempt. -/
theorem backoff_schedule_shift (delay i fuel : Nat) :
    delay * 2 ^ i :: (List.range fuel).map (fun j => delay * 2 ^ (i + 1 + j)) =
    (List.range (fuel + 1)).map (fun j => delay * 2 ^ (i + j)) := by
  rw [List.range_succ_eq_map, List.map_cons, List.map_map]
  refine List.cons_eq_cons.mpr ⟨by rw [Nat.add_zero], ?_⟩
  apply List.map_congr_left
  intro j _
  simp only [Function.comp_apply]
  rw [show i + (j + 1) = i + 1 + j by omega]

/-- With a rate limiter of limit 0 (every check rejects) and an
always-allowing breaker, every iteration of the retry loop raises the
rate-limit error, records a breaker failure, and retries with exponential
backoff until the attempts are exhausted; the wrapped function is never
invoked. -/
theorem wrapGo_rate0 (op : Nat → Except String Nat) (delay : Nat) :
    ∀ (fuel i : Nat) (st : WrapSt (Bool × Nat)),
    st.cb.1 = true → st.rl.limit = 0 → st.rl.requests = [] →
    (wrapGo countingBreaker op delay (fuel + 1) i st).1 = .error .rateLimited ∧
    (wrapGo countingBreaker op delay (fuel + 1) i st).2.cb =
      (true, st.cb.2 + fuel + 1) ∧
    (wrapGo countingBreaker op delay (fuel + 1) i st).2.opCalls = st.opCalls ∧
    (wrapGo countingBreaker op delay (fuel + 1) i st).2.iters =
      st.iters + fuel + 1 ∧
    (wrapGo countingBreaker op delay (fuel + 1) i st).2.sleeps =
      st.sleeps ++ (List.range fuel).map (fun j => delay * 2 ^ (i + j)) := by
  intro fuel
  induction fuel with
  | zero =>
    intro i st hcb hlim hreq
    simp [wrapGo, wrapAttempt, countingBreaker, RateLimiter.allowRequest,
      RateLimiter.pruned, hcb, hlim, hreq]
  | succ fuel ih =>
    intro i st hcb hlim hreq
    have hstep : wrapGo countingBreaker op delay (fuel + 1 + 1) i st =
        wrapGo countingBreaker op delay (fuel + 1) (i + 1)
          { st with cb := (true, st.cb.2 + 1), iters := st.iters + 1,
                    rl := { st.rl with requests := [] },
                    now := st.now + delay * 2 ^ i,
                    sleeps := st.sleeps ++ [delay * 2 ^ i] } := by
      conv => lhs; rw [wrapGo]
      simp [wrapAttempt, countingBreaker, RateLimiter.allowRequest,
        RateLimiter.pruned, hcb, hlim, hreq]
    rw [hstep]
    have hres := ih (i + 1)
      { st with cb := (true, st.cb.2 + 1), iters := st.iters + 1,
                rl := { st.rl with requests := [] },
                now := st.now + delay * 2 ^ i,
                sleeps := st.sleeps ++ [delay * 2 ^ i] }
      rfl hlim rfl
    refine ⟨hres.1, ?_, hres.2.2.1, ?_, ?_⟩
    · rw [hres.2.1]
      simp only []
      rw [show st.cb.2 + 1 + fuel + 1 = st.cb.2 + (fuel + 1) + 1 by omega]
    · rw [hres.2.2.2.1]
      simp only []
      rw [show st.iters + 1 + fuel + 1 = st.iters + (fuel + 1) + 1 by omega]
    · rw [hres.2.2.2.2]
      simp only []
      rw [List.append_assoc, List.singleton_append, backoff_schedule_shift]

/-- Claim C3 (amended): in `wrap` the circuit-breaker check runs before the
rate-limit check - an attempt on which the breaker blocks raises the
circuit-open error without consulting the rate limiter (its state, including
pending pruning, is untouched) and without invoking the wrapped function.  A
call rejected by the rate limiter is not a distinguished fail-fast outcome:
the raised error is caught like any operation failure, `record_failure` is
called on the circuit breaker once per iteration, and the call is retried
with exponential backoff until `max_retries` further attempts are exhausted
(here shown with a limit-0 limiter: `maxR + 1` failure records, no
invocation of the wrapped function, and the full backoff schedule). -/
theorem wrap_circuit_before_rate (st : WrapSt (Bool × Nat))
    (op : Nat → Except String Nat) (hblock : st.cb.1 = false) :
    (wrapAttempt countingBreaker op st = (.error .circuitOpenErr, st)) ∧
    (∀ (maxR delay w now0 n0 : Nat) (op2 : Nat → Except String Nat),
      (wrapRun countingBreaker op2 maxR delay (true, n0)
        (RateLimiter.mkFresh 0 w) now0).1 = .error .rateLimited ∧
      (wrapRun countingBreaker op2 maxR delay (true, n0)
        (RateLimiter.mkFresh 0 w) now0).2.cb = (true, n0 + maxR + 1) ∧
      (wrapRun countingBreaker op2 maxR delay (true, n0)
        (RateLimiter.mkFresh 0 w) now0).2.opCalls = 0 ∧
      (wrapRun countingBreaker op2 maxR delay (true, n0)
        (RateLimiter.mkFresh 0 w) now0).2.iters = maxR + 1 ∧
      (wrapRun countingBreaker op2 maxR delay (true, n0)
        (RateLimiter.mkFresh 0 w) now0).2.sleeps =
        (List.range maxR).map (fun i => delay * 2 ^ i)) := by
  constructor
  · simp [wrapAttempt, countingBreaker, hblock]
  · intro maxR delay w now0 n0 op2
    have h := wrapGo_rate0 op2 delay maxR 0
      { cb := (true, n0), rl := RateLimiter.mkFresh 0 w, now := now0,
        opCalls := 0, sleeps := [], iters := 0 } rfl rfl rfl
    simp only [wrapRun]
    refine ⟨h.1, h.2.1, h.2.2.1, ?_, ?_⟩
    · rw [h.2.2.2.1]
      simp
    · rw [h.2.2.2.2]
      simp

/-- Witness for `wrap_circuit_before_rate` at a concrete blocked-breaker
state. -/
theorem wrap_circuit_before_rate_witness :
    wrapAttempt countingBreaker (fun _ => (.ok 42 : Except String Nat))
      { cb := ((false, 7) : Bool × Nat),
        rl := { limit := 3, window := 10, requests := [5] }, now := 100,
        opCalls := 0, sleeps := [], iters := 0 } =
      (.error .circuitOpenErr,
       { cb := ((false, 7) : Bool × Nat),
         rl := { limit := 3, window := 10, requests := [5] }, now := 100,
         opCalls := 0, sleeps := [], iters := 0 }) :=
  (wrap_circuit_before_rate
    { cb := ((false, 7) : Bool × Nat),
      rl := { limit := 3, window := 10, requests := [5] }, now := 100,
      opCalls := 0, sleeps := [], iters := 0 }
    (fun _ => (.ok 42 : Except String Nat)) rfl).1

/-! ## Claim C7 -/

/-- Claim C7 counterexample (allow-all breaker, rate limit 1, window 1000,
`max_retries = 1`, operation failing with "E0"): attempt 0 is admitted by
the rate limiter and the operation fails with the underlying error "E0";
attempt 1 is rejected by the rate limiter (the window still holds the first
timestamp), and since it is the last attempt, the bare `raise` re-raises the
rate-limit exception - the propagated error is not the last underlying
error. -/
theorem wrap_last_error_cex :
    (wrapRun countingBreaker (fun _ => (.error "E0" : Except String Nat)) 1 1
       (true, 0) (RateLimiter.mkFresh 1 1000) 100).1 = .error .rateLimited ∧
    (wrapRun countingBreaker (fun _ => (.error "E0" : Except String Nat)) 1 1
       (true, 0) (RateLimiter.mkFresh 1 1000) 100).2.opCalls = 1 ∧
    (wrapRun countingBreaker (fun _ => (.error "E0" : Except String Nat)) 1 1
       (true, 0) (RateLimiter.mkFresh 1 1000) 100).1 ≠
      .error (.opFailed "E0") := by
  refine ⟨rfl, rfl, ?_⟩
  show (Except.error (WrapErr.rateLimited) : Except (WrapErr String) Nat) ≠
    Except.error (WrapErr.opFailed "E0")
  simp

theorem wrapAttempt_bounds {γ ε α : Type} (ops : CBOps γ)
    (op : Nat → Except ε α) (st : WrapSt γ) :
    (wrapAttempt ops op st).2.opCalls ≤ st.opCalls + 1 ∧
    (wrapAttempt ops op st).2.iters = st.iters := by
  rcases hA : ops.allowRequest st.cb with ⟨allowed, cb1⟩
  rcases hR : st.rl.allowRequest st.now with ⟨rok, rl1⟩
  cases allowed <;> cases rok <;> cases hop : op st.opCalls <;>
    simp [wrapAttempt, hA, hR, hop]

theorem wrapGo_bounds {γ ε α : Type} (ops : CBOps γ) (op : Nat → Except ε α)
    (delay : Nat) :
    ∀ (fuel i : Nat) (st : WrapSt γ),
    (wrapGo ops op delay fuel i st).2.opCalls ≤ st.opCalls + fuel ∧
    (wrapGo ops op delay fuel i st).2.iters ≤ st.iters + fuel := by
  intro fuel
  induction fuel with
  | zero => intro i st; simp [wrapGo]
  | succ fuel ih =>
    intro i st
    rw [wrapGo]
    have hb := wrapAttempt_bounds ops op { st with iters := st.iters + 1 }
    rcases hA : wrapAttempt ops op { st with iters := st.iters + 1 }
      with ⟨res, st1⟩
    rw [hA] at hb
    simp only at hb
    cases res with
    | ok v =>
      simp only
      omega
    | error e =>
      simp only
      by_cases hf : fuel = 0
      · subst hf
        rw [if_pos rfl]
        simp only [WrapSt.mk.injEq]
        simp
        omega
      · simp only [if_neg hf]
        have := ih (i + 1)
          { st1 with cb := ops.recordFailure st1.cb,
                     now := st1.now + delay * 2 ^ i,
                     sleeps := st1.sleeps ++ [delay * 2 ^ i] }
        simp only at this
        omega

/-- With an always-allowing breaker, a rate limiter whose limit exceeds the
number of remaining attempts, and an operation failing on every invocation,
the retry loop invokes the operation once per iteration, sleeps the full
backoff schedule, and finally re-raises the error of the last attempt -
which is the underlying error of the final invocation. -/
theorem wrapGo_allfail (es : Nat → String) (delay : Nat) :
    ∀ (fuel i : Nat) (st : WrapSt (Bool × Nat)),
    st.cb.1 = true →
    st.rl.requests.length + fuel + 1 ≤ st.rl.limit →
    (wrapGo countingBreaker (fun k => (.error (es k) : Except String Nat))
        delay (fuel + 1) i st).1 =
      .error (.opFailed (es (st.opCalls + fuel))) ∧
    (wrapGo countingBreaker (fun k => (.error (es k) : Except String Nat))
        delay (fuel + 1) i st).2.opCalls = st.opCalls + fuel + 1 ∧
    (wrapGo countingBreaker (fun k => (.error (es k) : Except String Nat))
        delay (fuel + 1) i st).2.sleeps =
      st.sleeps ++ (List.range fuel).map (fun j => delay * 2 ^ (i + j)) := by
  intro fuel
  induction fuel with
  | zero =>
    intro i st hcb hlim
    have hplen : (st.rl.pruned st.now).length < st.rl.limit :=
      lt_of_le_of_lt (dropWhileLen_le _ _) (by omega)
    have hcond : ¬ (st.rl.limit ≤ (st.rl.pruned st.now).length) :=
      Nat.not_le.mpr hplen
    simp [wrapGo, wrapAttempt, countingBreaker, RateLimiter.allowRequest,
      hcb, hcond]
  | succ fuel ih =>
    intro i st hcb hlim
    have hplen : (st.rl.pruned st.now).length < st.rl.limit :=
      lt_of_le_of_lt (dropWhileLen_le _ _) (by omega)
    have hcond : ¬ (st.rl.limit ≤ (st.rl.pruned st.now).length) :=
      Nat.not_le.mpr hplen
    have hstep : wrapGo countingBreaker
        (fun k => (.error (es k) : Except String Nat)) delay
        (fuel + 1 + 1) i st =
        wrapGo countingBreaker (fun k => (.error (es k) : Except String Nat))
          delay (fuel + 1) (i + 1)
          { st with cb := (true, st.cb.2 + 1),
                    rl := { st.rl with
                            requests := st.rl.pruned st.now ++ [st.now] },
                    opCalls := st.opCalls + 1,
                    iters := st.iters + 1,
                    now := st.now + delay * 2 ^ i,
                    sleeps := st.sleeps ++ [delay * 2 ^ i] } := by
      conv => lhs; rw [wrapGo]
      simp [wrapAttempt, countingBreaker, RateLimiter.allowRequest, hcb,
        hcond]
    rw [hstep]
    have hres := ih (i + 1)
      { st with cb := (true, st.cb.2 + 1),
                rl := { st.rl with
                        requests := st.rl.pruned st.now ++ [st.now] },
                opCalls := st.opCalls + 1,
                iters := st.iters + 1,
                now := st.now + delay * 2 ^ i,
                sleeps := st.sleeps ++ [delay * 2 ^ i] }
      rfl
      (by
        simp only [List.length_append, List.length_singleton]
        have := dropWhileLen_le
          (fun t => decide (t < st.now - st.rl.window)) st.rl.requests
        simp only [RateLimiter.pruned]
        omega)
    refine ⟨?_, ?_, ?_⟩
    · rw [hres.1]
      simp only []
      rw [show st.opCalls + 1 + fuel = st.opCalls + (fuel + 1) by omega]
    · rw [hres.2.1]
      simp only []
      rw [show st.opCalls + 1 + fuel + 1 = st.opCalls + (fuel + 1) + 1 by omega]
    · rw [hres.2.2]
      simp only []
      rw [List.append_assoc, List.singleton_append, backoff_schedule_shift]

/-- Claim C7 (amended): every envelope invocation runs at most
`maxRetries + 1` loop iterations and invokes the wrapped operation at most
`maxRetries + 1` times; between consecutive attempts it sleeps
`retryDelay * 2 ^ attempt` with attempt starting at 0; and when all attempts
fail, the exception raised on the last attempt is propagated - this is the
last underlying error whenever the final attempt actually invoked the
operation (shown below for runs in which the breaker and the rate limiter
admit every attempt), but it can instead be a circuit-open or rate-limit
rejection when the final attempt was blocked. -/
theorem wrap_retry_backoff_last_error :
    (∀ (γ ε α : Type) (ops : CBOps γ) (op : Nat → Except ε α)
        (maxR delay : Nat) (cb0 : γ) (rl0 : RateLimiter) (now0 : Nat),
      (wrapRun ops op maxR delay cb0 rl0 now0).2.opCalls ≤ maxR + 1 ∧
      (wrapRun ops op maxR delay cb0 rl0 now0).2.iters ≤ maxR + 1) ∧
    (∀ (maxR delay w lim now0 : Nat) (es : Nat → String),
      maxR + 1 ≤ lim →
      (wrapRun countingBreaker
          (fun k => (.error (es k) : Except String Nat)) maxR delay
          (true, 0) (RateLimiter.mkFresh lim w) now0).1 =
        .error (.opFailed (es maxR)) ∧
      (wrapRun countingBreaker
          (fun k => (.error (es k) : Except String Nat)) maxR delay
          (true, 0) (RateLimiter.mkFresh lim w) now0).2.opCalls = maxR + 1 ∧
      (wrapRun countingBreaker
          (fun k => (.error (es k) : Except String Nat)) maxR delay
          (true, 0) (RateLimiter.mkFresh lim w) now0).2.sleeps =
        (List.range maxR).map (fun i => delay * 2 ^ i)) := by
  constructor
  · intro γ ε α ops op maxR delay cb0 rl0 now0
    have h := wrapGo_bounds ops op delay (maxR + 1) 0
      { cb := cb0, rl := rl0, now := now0, opCalls := 0, sleeps := [],
        iters := 0 }
    simp at h
    simp only [wrapRun]
    exact h
  · intro maxR delay w lim now0 es hlim
    have h := wrapGo_allfail es delay maxR 0
      { cb := (true, 0), rl := RateLimiter.mkFresh lim w, now := now0,
        opCalls := 0, sleeps := [], iters := 0 }
      rfl (by simp [RateLimiter.mkFresh]; omega)
    simp only [wrapRun]
    refine ⟨?_, ?_, ?_⟩
    · rw [h.1]
      simp
    · rw [h.2.1]
      simp
    · rw [h.2.2]
      simp

/-- Witness for `wrap_retry_backoff_last_error`: two attempts, both
invoking the failing operation; the error of the second (last) attempt is
propagated and one backoff sleep of `delay * 2 ^ 0` occurred. -/
theorem wrap_retry_backoff_last_error_witness :
    (wrapRun countingBreaker
        (fun k => (.error (toString k) : Except String Nat)) 1 1
        (true, 0) (RateLimiter.mkFresh 2 10) 100).1 =
      .error (.opFailed (toString 1)) ∧
    (wrapRun countingBreaker
        (fun k => (.error (toString k) : Except String Nat)) 1 1
        (true, 0) (RateLimiter.mkFresh 2 10) 100).2.opCalls = 1 + 1 ∧
    (wrapRun countingBreaker
        (fun k => (.error (toString k) : Except String Nat)) 1 1
        (true, 0) (RateLimiter.mkFresh 2 10) 100).2.sleeps =
      (List.range 1).map (fun i => 1 * 2 ^ i) :=
  wrap_retry_backoff_last_error.2 1 1 10 2 100 toString (by omega)

/-! ## Claim C2 -/

/-- Claim C2, evaluated at the failing input (role "sales", message "hi",
`context_data=None`, generator succeeding with "Hello!", processed twice in
immediate succession from a fresh cache): the arity bug in
`semantic_cache.set(cache_key, response_content, metadata)` raises a
`TypeError` inside the success path, so the first call returns the fixed
error message and leaves the cache untouched; the second call therefore
misses the cache and invokes the generator again.  Each call has
`genCalls = 1` - two generator invocations in total, where the claim
requires at most one - and neither call returns the generated
response text. -/
theorem dualProcess_idempotence_bug :
    dualProcessMessage "u1" 100 (SemanticCache.mkFresh String 3600)
      (.success "Hello!") "hi" "sales" =
      .ok { response := processingErrorMsg,
            metadata := [("conversation_id", MVal.s "u1"),
                         ("role", MVal.s "sales"),
                         ("message_length", MVal.n 2),
                         ("context_data_provided", MVal.b false)],
            cache := SemanticCache.mkFresh String 3600, genCalls := 1 } ∧
    dualProcessMessage "u2" 101 (SemanticCache.mkFresh String 3600)
      (.success "Hello!") "hi" "sales" =
      .ok { response := processingErrorMsg,
            metadata := [("conversation_id", MVal.s "u2"),
                         ("role", MVal.s "sales"),
                         ("message_length", MVal.n 2),
                         ("context_data_provided", MVal.b false)],
            cache := SemanticCache.mkFresh String 3600, genCalls := 1 } ∧
    processingErrorMsg ≠ "Hello!" :=
  ⟨rfl, rfl, by simp [processingErrorMsg]⟩

/-! ## Claim C8 -/

/-- Claim C8 counterexample: on a generator failure the returned metadata of
`DualRoleAgent.process_message` carries no "error" or "errorType" key - the
error detail goes to the logger only - so the claim that error detail is
populated in the returned metadata fails at this input. -/
theorem dualProcess_error_metadata_cex :
    dualProcessMessage "u1" 100 (SemanticCache.mkFresh String 3600)
      (.raises "boom") "hi" "support" =
      .ok { response := processingErrorMsg,
            metadata := [("conversation_id", MVal.s "u1"),
                         ("role", MVal.s "support"),
                         ("message_length", MVal.n 2),
                         ("context_data_provided", MVal.b false)],
            cache := SemanticCache.mkFresh String 3600, genCalls := 1 } ∧
    assocGet [(("conversation_id" : String), MVal.s "u1"),
              ("role", MVal.s "support"), ("message_length", MVal.n 2),
              ("context_data_provided", MVal.b false)] "error" = none ∧
    assocGet [(("conversation_id" : String), MVal.s "u1"),
              ("role", MVal.s "support"), ("message_length", MVal.n 2),
              ("context_data_provided", MVal.b false)] "errorType" = none :=
  ⟨rfl, rfl, rfl⟩

/-- Claim C8 (amended): for every inbound message (with a valid role, no
extractable entities, and a cache miss for its key - the state every real
run is in, since nothing is ever cached), a generator failure is caught at
the boundary: `process_message` returns normally (no exception escapes) with
the fixed user-facing fallback message, the failed result is not cached (the
cache is exactly the post-lookup state), and the returned metadata carries
no error fields - the error detail is emitted to the log only, not to the
metadata; the dispatcher `process_message` of `langchain_integration.py`
likewise converts any agent exception into its fixed fallback string (and
returns no metadata at all). -/
theorem dualProcess_failure_fallback (uuid e msg role : String) (now : Nat)
    (cache : SemanticCache String)
    (hrole : role = "sales" ∨ role = "support")
    (hent : dualExtractEntityIds msg = [])
    (hmiss : (cache.get (role ++ ":" ++ msg) now).1 = none) :
    dualProcessMessage uuid now cache (.raises e) msg role =
      .ok { response := processingErrorMsg,
            metadata := [("conversation_id", MVal.s uuid),
                         ("role", MVal.s role),
                         ("message_length", MVal.n msg.length),
                         ("context_data_provided", MVal.b false)],
            cache := (cache.get (role ++ ":" ++ msg) now).2,
            genCalls := 1 } ∧
    langProcessMessage (.error e) = dispFallbackMsg := by
  refine ⟨?_, rfl⟩
  have hpair : cache.get (role ++ ":" ++ msg) now =
      (none, (cache.get (role ++ ":" ++ msg) now).2) := by
    rw [← hmiss]
  unfold dualProcessMessage
  rw [hent, hpair]
  have hr : ¬ ¬ (role = "sales" ∨ role = "support") := not_not_intro hrole
  rw [if_neg hr]
  simp [dualProcessMessage.dualMiss]
  rw [hmiss]

/-- Witness for `dualProcess_failure_fallback` at a concrete failing run. -/
theorem dualProcess_failure_fallback_witness :
    dualProcessMessage "u1" 100 (SemanticCache.mkFresh String 3600)
      (.raises "boom") "hi" "support" =
      .ok { response := processingErrorMsg,
            metadata := [("conversation_id", MVal.s "u1"),
                         ("role", MVal.s "support"),
                         ("message_length", MVal.n "hi".length),
                         ("context_data_provided", MVal.b false)],
            cache := ((SemanticCache.mkFresh String 3600).get
              ("support" ++ ":" ++ "hi") 100).2,
            genCalls := 1 } ∧
    langProcessMessage (.error "boom") = dispFallbackMsg :=
  dualProcess_failure_fallback "u1" "boom" "hi" "support" 100
    (SemanticCache.mkFresh String 3600) (Or.inr rfl) rfl rfl

/-! ## Claim C4 -/

theorem allowRequest_length_le (rl : RateLimiter) (now : Nat)
    (h : rl.requests.length ≤ rl.limit) :
    (rl.allowRequest now).2.requests.length ≤ rl.limit := by
  have hp : (rl.pruned now).length ≤ rl.requests.length := dropWhileLen_le _ _
  unfold RateLimiter.allowRequest
  by_cases hc : rl.limit ≤ (rl.pruned now).length
  · simp only [if_pos hc]
    exact le_trans hp h
  · simp only [if_neg hc]
    simp only [List.length_append, List.length_singleton]
    omega

/-- Decisions of a run in which no pruning ever removes an entry: the first
`limit - pre.length` calls are admitted and every later call is rejected. -/
theorem run_noprune_decisions (K w : Nat) :
    ∀ (ts pre : List Nat),
    (∀ x ∈ pre, ∀ t ∈ ts, ¬ (x < t - w)) →
    List.Pairwise (fun a b => ¬ (a < b - w)) ts →
    ((⟨K, w, pre⟩ : RateLimiter).run ts).2 =
      (List.range ts.length).map (fun i => decide (pre.length + i < K)) := by
  intro ts
  induction ts with
  | nil => intro pre _ _; rfl
  | cons t ts ih =>
    intro pre h1 h2
    have hprune : (⟨K, w, pre⟩ : RateLimiter).pruned t = pre := by
      unfold RateLimiter.pruned
      cases pre with
      | nil => rfl
      | cons x rest =>
        have hx := h1 x (List.mem_cons_self x rest) t (List.mem_cons_self t ts)
        simp only
        rw [List.dropWhile_cons_of_neg (by simpa using hx)]
    rcases List.pairwise_cons.mp h2 with ⟨hhead, htail⟩
    by_cases hK : K ≤ pre.length
    · have hreq : (⟨K, w, pre⟩ : RateLimiter).allowRequest t =
          (false, ⟨K, w, pre⟩) := by
        unfold RateLimiter.allowRequest
        rw [hprune]
        simp only [if_pos hK]
      show (let p := (⟨K, w, pre⟩ : RateLimiter).allowRequest t
            let q := p.2.run ts
            (q.1, p.1 :: q.2)).2 =
        (List.range (t :: ts).length).map
          (fun i => decide (pre.length + i < K))
      rw [hreq]
      simp only
      rw [ih pre (fun x hx u hu => h1 x hx u (List.mem_cons_of_mem t hu))
        htail]
      rw [List.length_cons, List.range_succ_eq_map, List.map_cons,
        List.map_map]
      refine List.cons_eq_cons.mpr ⟨?_, ?_⟩
      · simp only [Nat.add_zero]
        simp [Nat.not_lt.mpr hK]
      · apply List.map_congr_left
        intro j _
        simp only [Function.comp_apply]
        have hx1 : ¬ (pre.length + j < K) := by omega
        have hx2 : ¬ (pre.length + (j + 1) < K) := by omega
        simp [hx1, hx2]
    · have hreq : (⟨K, w, pre⟩ : RateLimiter).allowRequest t =
          (true, ⟨K, w, pre ++ [t]⟩) := by
        unfold RateLimiter.allowRequest
        rw [hprune]
        simp only [if_neg hK]
      show (let p := (⟨K, w, pre⟩ : RateLimiter).allowRequest t
            let q := p.2.run ts
            (q.1, p.1 :: q.2)).2 =
        (List.range (t :: ts).length).map
          (fun i => decide (pre.length + i < K))
      rw [hreq]
      simp only
      have h1' : ∀ x ∈ pre ++ [t], ∀ u ∈ ts, ¬ (x < u - w) := by
        intro x hx u hu
        rcases List.mem_append.mp hx with hx | hx
        · exact h1 x hx u (List.mem_cons_of_mem t hu)
        · rw [List.mem_singleton.mp hx]
          exact hhead u hu
      rw [ih (pre ++ [t]) h1' htail]
      rw [List.length_cons, List.range_succ_eq_map, List.map_cons,
        List.map_map]
      refine List.cons_eq_cons.mpr ⟨?_, ?_⟩
      · simp only [Nat.add_zero]
        simp [Nat.lt_of_not_le hK]
      · apply List.map_congr_left
        intro j _
        simp only [Function.comp_apply, List.length_append,
          List.length_singleton]
        rw [show pre.length + 1 + j = pre.length + (j + 1) by omega]

theorem range_decide_lt (K : Nat) :
    (List.range (K + 1)).map (fun i => decide (i < K)) =
      List.replicate K true ++ [false] := by
  rw [List.range_succ, List.map_append]
  refine congrArg₂ (· ++ ·) ?_ (by simp)
  refine List.eq_replicate_iff.mpr ⟨by simp, ?_⟩
  intro b hb
  rcases List.mem_map.mp hb with ⟨i, hi, hb⟩
  rw [← hb]
  simpa using List.mem_range.mp hi

/-- The interval-membership invariant: processing sorted call times from a
state whose queue is the admitted history filtered to the current window
keeps every closed window-length interval at no more than `limit` admitted
timestamps. -/
theorem admitted_interval_aux (K w : Nat) :
    ∀ (ts adm : List Nat) (T : Nat),
    List.Sorted (· ≤ ·) adm →
    (∀ u ∈ adm, u ≤ T) →
    List.Sorted (· ≤ ·) ts →
    (∀ t ∈ ts, T ≤ t) →
    (∀ a : Nat, ((adm.filter
      (fun u => decide (a ≤ u) && decide (u ≤ a + w))).length ≤ K)) →
    ∀ a : Nat,
    (((adm ++ (⟨K, w, adm.filter (fun u => ! decide (u < T - w))⟩ :
        RateLimiter).admitted ts).filter
      (fun u => decide (a ≤ u) && decide (u ≤ a + w))).length ≤ K) := by
  intro ts
  induction ts with
  | nil =>
    intro adm T _ _ _ _ hcount a
    simpa [RateLimiter.admitted] using hcount a
  | cons t ts ih =>
    intro adm T hadmSort hadmT htsSort htsT hcount a
    rcases List.sorted_cons.mp htsSort with ⟨htts, htsSort'⟩
    have hTt : T ≤ t := htsT t (List.mem_cons_self t ts)
    have hadmt : ∀ u ∈ adm, u ≤ t := fun u hu => le_trans (hadmT u hu) hTt
    have hfsort : List.Sorted (· ≤ ·)
        (adm.filter (fun u => ! decide (u < T - w))) :=
      List.Pairwise.filter _ hadmSort
    have hprune : (⟨K, w, adm.filter (fun u => ! decide (u < T - w))⟩ :
        RateLimiter).pruned t =
        adm.filter (fun u => ! decide (u < t - w)) := by
      unfold RateLimiter.pruned
      simp only
      rw [dropWhile_eq_filter_of_sorted _ _ hfsort, List.filter_filter]
      apply List.filter_congr
      intro u _
      by_cases hu : u < t - w
      · simp [hu]
      · have hut : ¬ (u < T - w) := by
          have : T - w ≤ t - w := Nat.sub_le_sub_right hTt w
          omega
        simp [hu, hut]
    by_cases hK : K ≤ (adm.filter (fun u => ! decide (u < t - w))).length
    · have hreq : (⟨K, w, adm.filter (fun u => ! decide (u < T - w))⟩ :
          RateLimiter).allowRequest t =
          (false, ⟨K, w, adm.filter (fun u => ! decide (u < t - w))⟩) := by
        unfold RateLimiter.allowRequest
        rw [hprune]
        simp only [if_pos hK]
      have hstep : (⟨K, w, adm.filter (fun u => ! decide (u < T - w))⟩ :
          RateLimiter).admitted (t :: ts) =
          (⟨K, w, adm.filter (fun u => ! decide (u < t - w))⟩ :
            RateLimiter).admitted ts := by
        conv => lhs; unfold RateLimiter.admitted
        rw [hreq]
        simp
      rw [hstep]
      exact ih adm t hadmSort hadmt htsSort' htts hcount a
    · have hreq : (⟨K, w, adm.filter (fun u => ! decide (u < T - w))⟩ :
          RateLimiter).allowRequest t =
          (true, ⟨K, w, adm.filter (fun u => ! decide (u < t - w)) ++ [t]⟩) := by
        unfold RateLimiter.allowRequest
        rw [hprune]
        simp only [if_neg hK]
      have hfilt : adm.filter (fun u => ! decide (u < t - w)) ++ [t] =
          (adm ++ [t]).filter (fun u => ! decide (u < t - w)) := by
        rw [List.filter_append]
        simp
      have hstep : (⟨K, w, adm.filter (fun u => ! decide (u < T - w))⟩ :
          RateLimiter).admitted (t :: ts) =
          t :: (⟨K, w, (adm ++ [t]).filter
            (fun u => ! decide (u < t - w))⟩ : RateLimiter).admitted ts := by
        conv => lhs; unfold RateLimiter.admitted
        rw [hreq, hfilt]
        simp
      rw [hstep]
      have hsort' : List.Sorted (· ≤ ·) (adm ++ [t]) := by
        rw [List.Sorted, List.pairwise_append]
        exact ⟨hadmSort, List.pairwise_singleton _ _,
          fun x hx y hy => by rw [List.mem_singleton.mp hy]; exact hadmt x hx⟩
      have hadmT' : ∀ u ∈ adm ++ [t], u ≤ t := by
        intro u hu
        rcases List.mem_append.mp hu with hu | hu
        · exact hadmt u hu
        · rw [List.mem_singleton.mp hu]
      have hcount' : ∀ b : Nat, (((adm ++ [t]).filter
          (fun u => decide (b ≤ u) && decide (u ≤ b + w))).length ≤ K) := by
        intro b
        rw [List.filter_append]
        by_cases hb : (decide (b ≤ t) && decide (t ≤ b + w)) = true
        · have hone : List.filter
              (fun u => decide (b ≤ u) && decide (u ≤ b + w)) [t] = [t] := by
            simp [List.filter_cons, hb]
          rw [hone]
          simp only [Bool.and_eq_true, decide_eq_true_eq] at hb
          have hsub : ∀ u : Nat,
              (decide (b ≤ u) && decide (u ≤ b + w)) = true →
              (! decide (u < t - w)) = true := by
            intro u hu
            simp only [Bool.and_eq_true, decide_eq_true_eq] at hu
            simp only [Bool.not_eq_true', decide_eq_false_iff_not]
            omega
          have := filterLen_mono adm _ _ hsub
          simp only [List.length_append, List.length_singleton]
          omega
        · have hzero : List.filter
              (fun u => decide (b ≤ u) && decide (u ≤ b + w)) [t] = [] := by
            simp only [List.filter_cons, List.filter_nil, if_neg hb]
          rw [hzero]
          simpa using hcount b
      have := ih (adm ++ [t]) t hsort' hadmT' htsSort' htts hcount' a
      rw [List.append_cons]
      exact this

/-- Claim C4: (i) the recorded-timestamp queue never exceeds `limit` entries
after an `allow_request` (pruning only shrinks it and an append only happens
below the limit); (ii) for a fresh limiter with `limit = K`, `window = W`
and `K + 1` nondecreasing call times inside one closed window-length
interval, the first `K` calls are admitted and the `(K+1)`-th is rejected;
(iii) for any nondecreasing call schedule, any closed interval `[a, a + W]`
contains at most `K` admitted timestamps. -/
theorem rateLimiter_window_bound :
    (∀ (rl : RateLimiter) (now : Nat), rl.requests.length ≤ rl.limit →
       (rl.allowRequest now).2.requests.length ≤ rl.limit) ∧
    (∀ (K w t0 : Nat) (rest : List Nat),
       List.Sorted (· ≤ ·) (t0 :: rest) →
       (∀ t ∈ t0 :: rest, t ≤ t0 + w) →
       (t0 :: rest).length = K + 1 →
       ((RateLimiter.mkFresh K w).run (t0 :: rest)).2 =
         List.replicate K true ++ [false]) ∧
    (∀ (K w a : Nat) (ts : List Nat), List.Sorted (· ≤ ·) ts →
       (((RateLimiter.mkFresh K w).admitted ts).filter
         (fun u => decide (a ≤ u) && decide (u ≤ a + w))).length ≤ K) := by
  refine ⟨allowRequest_length_le, ?_, ?_⟩
  · intro K w t0 rest hsort hwin hlen
    have hlow : ∀ x ∈ t0 :: rest, t0 ≤ x := by
      intro x hx
      rcases List.mem_cons.mp hx with hx | hx
      · rw [hx]
      · exact (List.sorted_cons.mp hsort).1 x hx
    have hpw : List.Pairwise (fun a b => ¬ (a < b - w)) (t0 :: rest) := by
      apply List.pairwise_of_forall_mem_list
      intro x hx y hy
      have h1 := hlow x hx
      have h2 := hwin y hy
      omega
    have hdec := run_noprune_decisions K w (t0 :: rest) [] (by simp) hpw
    rw [show (RateLimiter.mkFresh K w) = (⟨K, w, []⟩ : RateLimiter) from rfl,
      hdec, hlen, ← range_decide_lt K]
    apply List.map_congr_left
    intro i _
    simp
  · intro K w a ts hsort
    have := admitted_interval_aux K w ts [] 0 (by simp) (by simp) hsort
      (by simp) (by simp) a
    simpa [RateLimiter.mkFresh] using this

/-- Witness for `rateLimiter_window_bound`: limit 1, window 10, calls at
times 5 and 6 - first admitted, second rejected - and the interval bound at
`a = 0`. -/
theorem rateLimiter_window_bound_witness :
    (((⟨2, 5, [1, 2]⟩ : RateLimiter).allowRequest 3).2.requests.length ≤ 2) ∧
    ((RateLimiter.mkFresh 1 10).run [5, 6]).2 =
      List.replicate 1 true ++ [false] ∧
    (((RateLimiter.mkFresh 1 10).admitted [5, 6]).filter
      (fun u => decide (0 ≤ u) && decide (u ≤ 0 + 10))).length ≤ 1 :=
  ⟨rateLimiter_window_bound.1 ⟨2, 5, [1, 2]⟩ 3 (by decide),
   rateLimiter_window_bound.2.1 1 10 5 [6] (by decide) (by decide) (by decide),
   rateLimiter_window_bound.2.2 1 10 0 [5, 6] (by decide)⟩
